import Mathlib

/-!
Shallow embedding of the part-merge subsystem of the myscaledb repository
(src/Storages/MergeTree/MergeTask.cpp), together with theorems settling the
specification claims about it.

Each definition embeds one function (or one cohesive fragment) of the C++
source; the source file and line ranges are named in the doc comments.
Machine integers are modelled as Nat (the C++ counters never overflow in the
fragments embedded here, except where an explicit sentinel matters, which is
modelled with an explicit constant); fallible code returns Except.
-/

/-- The merging modes of MergeTreeData::MergingParams (MergeTask.cpp, switch in
createMergedStream, lines 1438-1487). -/
inductive MergingMode
  | Ordinary
  | Collapsing
  | Summing
  | Aggregating
  | Replacing
  | Graphite
  | VersionedCollapsing
deriving DecidableEq, Repr

/-- The two merge algorithms (MergeAlgorithm in the C++ source). -/
inductive MergeAlgorithm
  | Horizontal
  | Vertical
deriving DecidableEq, Repr

/-- Error kinds thrown by MergeTask.cpp (namespace ErrorCodes plus
BAD_ARGUMENTS used at line 730). -/
inductive MergeError
  | Aborted (msg : String)
  | LogicalError (msg : String)
  | BadArguments (msg : String)
  | DirectoryAlreadyExists
deriving DecidableEq, Repr

/-- Modelled from the spec: RowSourcePart is declared outside src/ (the spec
says it is one byte split into a source-number field and a skip bit, so the
source-number field holds 7 bits). MAX_PARTS is the largest source number. -/
def RowSourcePart_MAX_PARTS : Nat := 127

/-- The inputs consulted by
MergeTask::ExecuteAndFinalizeHorizontalPart::chooseMergeAlgorithm
(MergeTask.cpp lines 1524-1565). `parts_wide` holds isWidePart for each
source part, so `parts_wide.length` is the source-part count. -/
structure ChooseInput where
  deduplicate : Bool
  enable_vertical_merge_algorithm : Nat
  need_remove_expired_values : Bool
  part_type_is_wide : Bool
  storage_type_is_full : Bool
  allow_vertical_merges_from_compact_to_wide_parts : Bool
  parts_wide : List Bool
  mode : MergingMode
  gathering_columns_count : Nat
  vertical_merge_algorithm_min_columns_to_activate : Nat
  sum_rows_upper_bound : Nat
  vertical_merge_algorithm_min_rows_to_activate : Nat
deriving Repr

/-- The `is_supported_storage` check of chooseMergeAlgorithm
(MergeTask.cpp lines 1549-1553). -/
def isSupportedStorageMode (m : MergingMode) : Bool :=
  m = MergingMode.Ordinary || m = MergingMode.Collapsing
    || m = MergingMode.Replacing || m = MergingMode.VersionedCollapsing

/-- MergeTask::ExecuteAndFinalizeHorizontalPart::chooseMergeAlgorithm
(MergeTask.cpp lines 1524-1565), translated clause by clause. -/
def chooseMergeAlgorithm (c : ChooseInput) : MergeAlgorithm :=
  if c.deduplicate then .Horizontal
  else if c.enable_vertical_merge_algorithm = 0 then .Horizontal
  else if c.need_remove_expired_values then .Horizontal
  else if !c.part_type_is_wide then .Horizontal
  else if !c.storage_type_is_full then .Horizontal
  else if !c.allow_vertical_merges_from_compact_to_wide_parts
          && c.parts_wide.any (fun w => !w) then .Horizontal
  else if isSupportedStorageMode c.mode
          && (c.sum_rows_upper_bound ≥ c.vertical_merge_algorithm_min_rows_to_activate)
          && (c.gathering_columns_count ≥ c.vertical_merge_algorithm_min_columns_to_activate)
          && (c.parts_wide.length ≤ RowSourcePart_MAX_PARTS)
  then .Vertical
  else .Horizontal

/-- The disjunction of Horizontal-forcing conditions as the spec states them. -/
def horizontalConditions (c : ChooseInput) : Prop :=
  c.deduplicate = true
  ∨ c.enable_vertical_merge_algorithm = 0
  ∨ c.need_remove_expired_values = true
  ∨ c.part_type_is_wide = false
  ∨ c.storage_type_is_full = false
  ∨ (c.allow_vertical_merges_from_compact_to_wide_parts = false
      ∧ ∃ w ∈ c.parts_wide, w = false)
  ∨ ¬(c.mode = MergingMode.Ordinary ∨ c.mode = MergingMode.Collapsing
      ∨ c.mode = MergingMode.Replacing ∨ c.mode = MergingMode.VersionedCollapsing)
  ∨ c.gathering_columns_count < c.vertical_merge_algorithm_min_columns_to_activate
  ∨ c.sum_rows_upper_bound < c.vertical_merge_algorithm_min_rows_to_activate
  ∨ RowSourcePart_MAX_PARTS < c.parts_wide.length

lemma choose_horizontal_iff (c : ChooseInput) :
    chooseMergeAlgorithm c = MergeAlgorithm.Horizontal ↔ horizontalConditions c := by
  unfold chooseMergeAlgorithm horizontalConditions
  split_ifs with h1 h2 h3 h4 h5 h6 h7
  · simp_all
  · simp_all
  · simp_all
  · simp only [Bool.not_eq_true'] at h4
    simp_all
  · simp only [Bool.not_eq_true'] at h5
    simp_all
  · simp only [Bool.and_eq_true, Bool.not_eq_true', List.any_eq_true, Bool.not_eq_true] at h6
    simp only [true_iff]
    exact Or.inr (Or.inr (Or.inr (Or.inr (Or.inr (Or.inl ⟨h6.1, h6.2⟩)))))
  · -- Vertical branch: all four gating booleans hold, so no condition may hold.
    simp only [Bool.and_eq_true, decide_eq_true_eq, isSupportedStorageMode,
      Bool.or_eq_true] at h7
    simp only [Bool.not_eq_true'] at h4 h5
    simp only [Bool.and_eq_true, Bool.not_eq_true', List.any_eq_true, Bool.not_eq_true] at h6
    push_neg at h6
    obtain ⟨⟨⟨hm, hrows⟩, hcols⟩, hparts⟩ := h7
    constructor
    · intro hc; cases hc
    · intro hc
      exfalso
      rcases hc with hc | hc | hc | hc | hc | hc | hc | hc | hc | hc
      · simp_all
      · exact h2 hc
      · simp_all
      · simp_all
      · simp_all
      · rcases hc with ⟨ha, w, hw, hwf⟩
        have := h6 ha w hw
        simp_all
      · exact hc (by tauto)
      · omega
      · omega
      · omega
  · -- Horizontal fallthrough: some gating boolean failed.
    simp only [true_iff]
    by_cases hs : isSupportedStorageMode c.mode = true
    · by_cases hr : c.sum_rows_upper_bound ≥ c.vertical_merge_algorithm_min_rows_to_activate
      · by_cases hg : c.gathering_columns_count
            ≥ c.vertical_merge_algorithm_min_columns_to_activate
        · have hp : ¬ c.parts_wide.length ≤ RowSourcePart_MAX_PARTS := by
            intro hp
            apply h7
            simp only [Bool.and_eq_true, decide_eq_true_eq]
            exact ⟨⟨⟨hs, hr⟩, hg⟩, hp⟩
          exact Or.inr (Or.inr (Or.inr (Or.inr (Or.inr (Or.inr (Or.inr (Or.inr
            (Or.inr (by omega)))))))))
        · exact Or.inr (Or.inr (Or.inr (Or.inr (Or.inr (Or.inr (Or.inr
            (Or.inl (by omega))))))))
      · exact Or.inr (Or.inr (Or.inr (Or.inr (Or.inr (Or.inr (Or.inr (Or.inr
          (Or.inl (by omega)))))))))
    · simp only [isSupportedStorageMode, Bool.or_eq_true, decide_eq_true_eq] at hs
      push_neg at hs
      exact Or.inr (Or.inr (Or.inr (Or.inr (Or.inr (Or.inr (Or.inl (by tauto)))))))

/-- C3: chooseMergeAlgorithm returns Horizontal exactly when one of the ten
spec conditions holds (deduplication, vertical merge disabled, TTL eviction
active, part type not Wide, storage type not Full, a non-wide source while
compact-to-wide vertical merges are disallowed, unsupported merging mode, too
few gathering columns, too few rows, or too many source parts), and Vertical
otherwise. -/
theorem chooseMergeAlgorithm_spec (c : ChooseInput) :
    (chooseMergeAlgorithm c = MergeAlgorithm.Horizontal ↔ horizontalConditions c)
    ∧ (chooseMergeAlgorithm c = MergeAlgorithm.Vertical ↔ ¬ horizontalConditions c) := by
  refine ⟨choose_horizontal_iff c, ?_⟩
  rcases h : chooseMergeAlgorithm c with _ | _
  · simp only [reduceCtorEq, false_iff, not_not]
    exact (choose_horizontal_iff c).mp h
  · simp only [true_iff]
    intro hc
    have := (choose_horizontal_iff c).mpr hc
    rw [h] at this
    cases this

/-! ### TTL handling in prepare (claim C5) -/

/-- The cancellation and TTL control flow of
MergeTask::ExecuteAndFinalizeHorizontalPart::prepare
(MergeTask.cpp lines 144-150 and 220-266), reduced to the booleans it
consults. `ttl_not_calculated` abbreviates "the table has TTL and some source
part has TTL values not yet calculated" (the loop at lines 231-239);
`part_min_ttl_matured` abbreviates "the accumulated part_min_ttl is nonzero
and at most time_of_merge" (lines 258-260). On success it returns the
resulting need_remove_expired_values flag. -/
def prepareTtl (merges_blocker_cancelled is_cancelled_flag ttl_merges_blocker_cancelled
    merge_type_is_ttl ttl_not_calculated part_min_ttl_matured : Bool) :
    Except MergeError Bool :=
  if merges_blocker_cancelled || is_cancelled_flag then
    .error (.Aborted "Cancelled merging parts")
  else if merge_type_is_ttl && ttl_merges_blocker_cancelled then
    .error (.Aborted "Cancelled merging parts with TTL")
  else
    let need0 := false
    let need1 := need0 || ttl_not_calculated
    let need2 := need1 || part_min_ttl_matured
    let need3 := if need2 && ttl_merges_blocker_cancelled then false else need2
    .ok need3

/-- C5 counterexample: a merge whose inputs require TTL eviction
(part_min_ttl_matured) while the TTL-merges blocker is active, but whose
assigned merge type is not a TTL merge, does not fail with Aborted: prepare
succeeds and disables the eviction (need_remove_expired_values = false). -/
theorem prepareTtl_no_abort_counterexample :
    prepareTtl false false true false false true = .ok false := by rfl

/-- C5 (amended): prepare aborts with "Cancelled merging parts with TTL"
exactly when the merge's assigned type is a TTL merge and the TTL-merges
blocker is active (and no general cancellation fired first); when the inputs
require eviction but the TTL blocker is active, prepare instead succeeds with
eviction disabled; eviction stays enabled only when the blocker is off. -/
theorem prepareTtl_spec (m f tb ty tnc matured : Bool) :
    (prepareTtl m f tb ty tnc matured = .error (.Aborted "Cancelled merging parts with TTL")
      ↔ (m = false ∧ f = false ∧ ty = true ∧ tb = true))
    ∧ (prepareTtl m f tb ty tnc matured = .ok true
      ↔ (m = false ∧ f = false ∧ tb = false ∧ (tnc = true ∨ matured = true)))
    ∧ (prepareTtl m f tb ty tnc matured = .ok false
      ↔ (m = false ∧ f = false ∧ ¬(ty = true ∧ tb = true)
          ∧ (tb = true ∨ (tnc = false ∧ matured = false)))) := by
  cases m <;> cases f <;> cases tb <;> cases ty <;> cases tnc <;> cases matured <;>
    simp [prepareTtl]

/-! ### The vertical-stage row-count guard (claim C9) -/

/-- The cancellation check and the per-column row-count check of
MergeTask::VerticalMergeStage::finalizeVerticalMergeForOneColumn
(MergeTask.cpp lines 957-979): a cancelled merge aborts; a column whose
gathered element count differs from the rows written by the sort-key merge is
a logic error. -/
def finalizeVerticalMergeForOneColumnCheck (merges_blocker_cancelled is_cancelled_flag : Bool)
    (rows_written column_elems_written : Nat) : Except MergeError Unit :=
  if merges_blocker_cancelled || is_cancelled_flag then
    .error (.Aborted "Cancelled merging parts")
  else if rows_written ≠ column_elems_written then
    .error (.LogicalError "Written elements of column differ from rows of PK columns")
  else .ok ()

/-- C9: a gathering column finalizes successfully exactly when the merge is
not cancelled and the column element count equals rows_written; a count
mismatch raises LogicalError. -/
theorem finalizeVerticalMergeForOneColumn_spec (m f : Bool) (rows elems : Nat) :
    (finalizeVerticalMergeForOneColumnCheck m f rows elems = .ok ()
      ↔ (m = false ∧ f = false ∧ elems = rows))
    ∧ (finalizeVerticalMergeForOneColumnCheck false false rows elems
        = .error (.LogicalError "Written elements of column differ from rows of PK columns")
      ↔ elems ≠ rows) := by
  constructor
  · unfold finalizeVerticalMergeForOneColumnCheck
    split_ifs with h1 h2
    · constructor
      · intro hc; exact absurd hc (by simp)
      · rintro ⟨hm, hf, _⟩
        rw [hm, hf] at h1
        simp at h1
    · constructor
      · intro hc; exact absurd hc (by simp)
      · rintro ⟨_, _, heq⟩
        exact absurd heq.symm h2
    · simp only [Bool.or_eq_true, not_or, Bool.not_eq_true] at h1
      push_neg at h2
      simp only [true_iff]
      exact ⟨h1.1, h1.2, h2.symm⟩
  · unfold finalizeVerticalMergeForOneColumnCheck
    split_ifs with h1 h2
    · exact absurd h1 (by simp)
    · simp only [true_iff]
      omega
    · push_neg at h2
      simp only [reduceCtorEq, false_iff, not_not]
      omega

/-! ### RowSourceStream accounting (claim C4) -/

/-- One record of the row-source stream: the part the row came from and
whether the merge discipline discarded it. Mirrors the RowSourcePart byte
described by the spec (declared outside src/). -/
structure RowSourcePart where
  source_num : Nat
  skip_flag : Bool
deriving DecidableEq, Repr

/-- Modelled from the spec: the RowSourceStream producers (the sorted-merge
transform family under Processors/Merges) and the filtering sequential source
reader are not under src/. Per the spec (invariant I5), every source row is
either counted into input_rows_filtered (producing no stream record) or
contributes exactly one RowSourceStream record whose skip flag says whether
the merge discipline emitted or discarded it. The k-way interleaving does not
affect the counts, so rows are accounted part by part. -/
def produceRowSourcesForPart (filtered skip : Nat → Bool) (s : Nat) (rows : List Nat) :
    List RowSourcePart × Nat :=
  rows.foldr
    (fun r acc => if filtered r then (acc.1, acc.2 + 1) else (⟨s, skip r⟩ :: acc.1, acc.2))
    ([], 0)

/-- Modelled from the spec: the merged stream over all source parts and the
final input_rows_filtered counter. -/
def produceRowSources (filtered skip : Nat → Bool) (parts : List (List Nat)) :
    List RowSourcePart × Nat :=
  let per := parts.enum.map fun sp => produceRowSourcesForPart filtered skip sp.1 sp.2
  ((per.map Prod.fst).flatten, (per.map Prod.snd).sum)

/-- The rows-sources consistency check of
MergeTask::VerticalMergeStage::prepareVerticalMergeForAllColumns
(MergeTask.cpp lines 850-858), performed before any column gathering. -/
def prepareVerticalMergeRowsSourcesCheck (sum_input_rows_exact input_rows_filtered
    rows_sources_count parts_size : Nat) : Except MergeError Unit :=
  if (rows_sources_count > 0 ∨ parts_size > 1)
      ∧ sum_input_rows_exact ≠ rows_sources_count + input_rows_filtered then
    .error (.LogicalError
      "Number of rows in source parts excluding filtered rows differs from number of bytes written to rows_sources file")
  else .ok ()

lemma produceRowSourcesForPart_count (filtered skip : Nat → Bool) (s : Nat) (rows : List Nat) :
    (produceRowSourcesForPart filtered skip s rows).1.length
      + (produceRowSourcesForPart filtered skip s rows).2 = rows.length := by
  induction rows with
  | nil => rfl
  | cons r rest ih =>
    unfold produceRowSourcesForPart at ih ⊢
    simp only [List.foldr_cons]
    split_ifs with h
    · simp only [List.length_cons]
      omega
    · simp only [List.length_cons]
      omega

lemma enumFrom_map_snd_length {α : Type} (n : Nat) (l : List (List α)) :
    ((List.enumFrom n l).map fun sp => sp.2.length) = l.map List.length := by
  induction l generalizing n with
  | nil => rfl
  | cons x rest ih => simp [List.enumFrom, ih]

lemma produceRowSources_pairs_count (filtered skip : Nat → Bool)
    (l : List (Nat × List Nat)) :
    (((l.map fun sp => produceRowSourcesForPart filtered skip sp.1 sp.2).map
        Prod.fst).flatten).length
      + ((l.map fun sp => produceRowSourcesForPart filtered skip sp.1 sp.2).map
          Prod.snd).sum
      = (l.map fun sp => sp.2.length).sum := by
  induction l with
  | nil => rfl
  | cons sp rest ih =>
    simp only [List.map_cons, List.flatten_cons, List.length_append, List.sum_cons]
    have h := produceRowSourcesForPart_count filtered skip sp.1 sp.2
    omega

/-- C4: whenever the RowSourceStream is produced, its record count plus
input_rows_filtered equals the total source row count; and the vertical
stage's pre-gathering check passes exactly when that equality holds (or the
degenerate single-part empty-stream case applies), raising LogicalError
otherwise. -/
theorem rowSources_accounting_spec (filtered skip : Nat → Bool) (parts : List (List Nat))
    (sum_input_rows_exact input_rows_filtered rows_sources_count parts_size : Nat) :
    ((produceRowSources filtered skip parts).1.length + (produceRowSources filtered skip parts).2
      = (parts.map List.length).sum)
    ∧ (prepareVerticalMergeRowsSourcesCheck sum_input_rows_exact input_rows_filtered
          rows_sources_count parts_size = .ok ()
      ↔ ((rows_sources_count = 0 ∧ parts_size ≤ 1)
          ∨ sum_input_rows_exact = rows_sources_count + input_rows_filtered))
    ∧ (prepareVerticalMergeRowsSourcesCheck sum_input_rows_exact input_rows_filtered
          rows_sources_count parts_size
        = .error (.LogicalError
            "Number of rows in source parts excluding filtered rows differs from number of bytes written to rows_sources file")
      ↔ ((rows_sources_count > 0 ∨ parts_size > 1)
          ∧ sum_input_rows_exact ≠ rows_sources_count + input_rows_filtered)) := by
  refine ⟨?_, ?_, ?_⟩
  · unfold produceRowSources
    have h := produceRowSources_pairs_count filtered skip parts.enum
    have h2 : (parts.enum.map fun sp => sp.2.length) = parts.map List.length :=
      enumFrom_map_snd_length 0 parts
    rw [h2] at h
    exact h
  · unfold prepareVerticalMergeRowsSourcesCheck
    split_ifs with h
    · simp only [reduceCtorEq, false_iff]
      intro hc
      rcases h with ⟨h1, h2⟩
      rcases hc with ⟨hz, hle⟩ | heq
      · rcases h1 with h1 | h1 <;> omega
      · exact h2 heq
    · simp only [true_iff]
      push_neg at h
      by_cases hz : rows_sources_count = 0 ∧ parts_size ≤ 1
      · exact Or.inl hz
      · refine Or.inr (h ?_)
        omega
  · unfold prepareVerticalMergeRowsSourcesCheck
    split_ifs with h
    · simp only [true_iff]
      exact h
    · simp only [reduceCtorEq, false_iff]
      exact h

/-! ### Cancellation of the horizontal stage (claim C8) -/

/-- State of the horizontal merge loop: the row counts of the blocks the
merged pipeline still has to deliver, and rows_written so far. -/
structure HorizontalState where
  remaining : List Nat
  rows_written : Nat
deriving DecidableEq, Repr

/-- The is_cancelled closure installed by prepare (MergeTask.cpp lines
461-469): merges blocker, TTL blocker (consulted only when eviction is
enabled), or the per-merge cancel flag. -/
def isCancelledClosure (merges_blocker_cancelled ttl_merges_blocker_cancelled
    need_remove_expired_values is_cancelled_flag : Bool) : Bool :=
  merges_blocker_cancelled
    || (need_remove_expired_values && ttl_merges_blocker_cancelled)
    || is_cancelled_flag

/-- One call of MergeTask::ExecuteAndFinalizeHorizontalPart::executeImpl
(MergeTask.cpp lines 518-563). `.ok (some st)` means the call pulled and
wrote one block and asks to be called again; `.ok none` means the stage
finished; the errors model the exceptions thrown after the pull loop ends
(lines 552-556). The block pull succeeds exactly when the pipeline still
holds a block and the merge is not cancelled (line 521). -/
def executeImplStep (mb tb nr fl : Bool) (st : HorizontalState) :
    Except MergeError (Option HorizontalState) :=
  match st.remaining with
  | b :: rest =>
    if isCancelledClosure mb tb nr fl then
      if mb || fl then .error (.Aborted "Cancelled merging parts")
      else if nr && tb then .error (.Aborted "Cancelled merging parts with expired TTL")
      else .ok none
    else .ok (some ⟨rest, st.rows_written + b⟩)
  | [] =>
    if mb || fl then .error (.Aborted "Cancelled merging parts")
    else if nr && tb then .error (.Aborted "Cancelled merging parts with expired TTL")
    else .ok none

/-- The driver loop: MergeTask::execute polls executeImpl until it stops
asking for more work (MergeTask.cpp lines 506-515 and 1339-1355). On success
it returns the final rows_written; the promise is resolved with the new part
only at the end of finalizeProjectionsAndWholeMerge (line 1272), reached only
when no stage threw, so an error value here models an unresolved/failed
promise. When executeImplStep pulls a block, the successor state is
⟨rest, rows + b⟩ by definition, which keeps the recursion structural. -/
def runHorizontalStage (mb tb nr fl : Bool) : List Nat → Nat → Except MergeError Nat
  | [], rows =>
    match executeImplStep mb tb nr fl ⟨[], rows⟩ with
    | .error e => .error e
    | .ok _ => .ok rows
  | b :: rest, rows =>
    match executeImplStep mb tb nr fl ⟨b :: rest, rows⟩ with
    | .error e => .error e
    | .ok none => .ok rows
    | .ok (some _) => runHorizontalStage mb tb nr fl rest (rows + b)

/-- C8: cancellation is terminal. With the merges blocker set (first triple)
or the per-merge cancel flag set (second triple), the next executeImpl call
raises Aborted "Cancelled merging parts" and pulls no block, the whole
horizontal run fails with that error, and no merged part is ever delivered
(the resolved-promise value, modelled by toOption, is none). -/
theorem cancellation_terminal_spec (mb tb nr fl : Bool) (remaining : List Nat) (rows : Nat) :
    (executeImplStep true tb nr fl ⟨remaining, rows⟩
        = .error (.Aborted "Cancelled merging parts"))
    ∧ (runHorizontalStage true tb nr fl remaining rows
        = .error (.Aborted "Cancelled merging parts"))
    ∧ ((runHorizontalStage true tb nr fl remaining rows).toOption = none)
    ∧ (executeImplStep mb tb nr true ⟨remaining, rows⟩
        = .error (.Aborted "Cancelled merging parts"))
    ∧ (runHorizontalStage mb tb nr true remaining rows
        = .error (.Aborted "Cancelled merging parts"))
    ∧ ((runHorizontalStage mb tb nr true remaining rows).toOption = none) := by
  refine ⟨?_, ?_, ?_, ?_, ?_, ?_⟩ <;>
    cases remaining <;>
      simp [executeImplStep, isCancelledClosure, runHorizontalStage, Except.toOption]

/-! ### Projection merges (claim C7) -/

/-- A projection declared on the table: its name and whether it is an
aggregate projection (ProjectionDescription::Type::Aggregate). -/
structure ProjectionDesc where
  name : String
  is_aggregate : Bool
deriving DecidableEq, Repr

/-- A source part as seen by the projection stage: the names of the
projection parts it carries (the keys of getProjectionParts). -/
structure ProjSourcePart where
  projection_names : List String
deriving DecidableEq, Repr

/-- The parameters of a nested projection-merge task created by
mergeMinMaxIndexAndPrepareProjections. -/
structure ProjectionTask where
  projection : String
  mode : MergingMode
  parent_is_new_part : Bool
  suffix : String
deriving DecidableEq, Repr

/-- The projection-selection loop of
MergeTask::MergeProjectionsStage::mergeMinMaxIndexAndPrepareProjections
(MergeTask.cpp lines 1033-1092): for each table projection, collect the
source parts carrying a projection part of that name; if some source lacks it
(fewer collected than sources), drop the projection for this merge; otherwise
create a nested MergeTask with mode Ordinary — Aggregating for aggregate
projections — the enclosing new part as parent-part, and the ".proj"
suffix. -/
def mergeMinMaxIndexAndPrepareProjections (projections : List ProjectionDesc)
    (parts : List ProjSourcePart) : List ProjectionTask :=
  projections.foldl
    (fun tasks projection =>
      let projection_parts :=
        parts.filter fun part => part.projection_names.contains projection.name
      if projection_parts.length < parts.length then tasks
      else
        tasks ++ [{ projection := projection.name,
                    mode := if projection.is_aggregate then MergingMode.Aggregating
                            else MergingMode.Ordinary,
                    parent_is_new_part := true,
                    suffix := ".proj" }])
    []

lemma mergeProjections_foldl (parts : List ProjSourcePart)
    (projections : List ProjectionDesc) (tasks : List ProjectionTask) :
    projections.foldl
      (fun tasks projection =>
        let projection_parts :=
          parts.filter fun part => part.projection_names.contains projection.name
        if projection_parts.length < parts.length then tasks
        else
          tasks ++ [{ projection := projection.name,
                      mode := if projection.is_aggregate then MergingMode.Aggregating
                              else MergingMode.Ordinary,
                      parent_is_new_part := true,
                      suffix := ".proj" }])
      tasks
    = tasks
      ++ (projections.filter fun projection =>
            parts.all fun part => part.projection_names.contains projection.name).map
          (fun projection =>
            { projection := projection.name,
              mode := if projection.is_aggregate then MergingMode.Aggregating
                      else MergingMode.Ordinary,
              parent_is_new_part := true,
              suffix := ".proj" }) := by
  induction projections generalizing tasks with
  | nil => simp
  | cons projection rest ih =>
    simp only [List.foldl_cons, List.filter_cons]
    by_cases hall : parts.all (fun part => part.projection_names.contains projection.name) = true
    · have hlen : ¬ (parts.filter fun part =>
          part.projection_names.contains projection.name).length < parts.length := by
        have := List.filter_length_eq_length.mpr (by
          intro a ha
          exact (List.all_eq_true.mp hall) a ha)
        omega
      rw [if_neg hlen, hall]
      simp only [if_true, List.map_cons]
      rw [ih]
      simp
    · have hlt : (parts.filter fun part =>
          part.projection_names.contains projection.name).length < parts.length := by
        have hle := List.length_filter_le
          (fun part => part.projection_names.contains projection.name) parts
        rcases Nat.lt_or_ge ((parts.filter fun part =>
            part.projection_names.contains projection.name).length) parts.length with h | h
        · exact h
        · exfalso
          apply hall
          exact List.all_eq_true.mpr (List.filter_length_eq_length.mp (by omega))
      rw [if_pos hlt]
      simp only [Bool.not_eq_true] at hall
      rw [hall]
      simp only [Bool.false_eq_true, if_false]
      exact ih tasks

/-- C7: a projection is merged exactly when every source part carries a
projection part of that name (otherwise it is dropped for this merge), and
the nested merge task runs with mode Ordinary — Aggregating for aggregate
projections — with the enclosing new part as parent and the ".proj"
suffix. -/
theorem mergeProjections_spec (projections : List ProjectionDesc)
    (parts : List ProjSourcePart) :
    mergeMinMaxIndexAndPrepareProjections projections parts
      = (projections.filter fun projection =>
            parts.all fun part => part.projection_names.contains projection.name).map
          (fun projection =>
            { projection := projection.name,
              mode := if projection.is_aggregate then MergingMode.Aggregating
                      else MergingMode.Ordinary,
              parent_is_new_part := true,
              suffix := ".proj" }) := by
  have h := mergeProjections_foldl parts projections []
  simpa [mergeMinMaxIndexAndPrepareProjections] using h

/-! ### Merging and gathering columns (claim C10) -/

/-- The MergingParams fields consulted by extractMergingAndGatheringColumns
(MergeTask.cpp lines 53-104). -/
structure MergingParams where
  mode : MergingMode
  sign_column : String
  version_column : String
  is_deleted_column : String
deriving DecidableEq, Repr

/-- The key-column set accumulated by extractMergingAndGatheringColumns
before the empty-key fallback (MergeTask.cpp lines 61-83): the sorting key's
required columns, every secondary index's required columns, and the columns
forced by the merging mode (sign for Collapsing and VersionedCollapsing,
is_deleted and version for Replacing). Only membership matters; the C++
std::set is modelled as a list. -/
def keyColumnsBeforeFallback (sort_key_required : List String)
    (index_required : List (List String)) (mp : MergingParams) : List String :=
  let key0 := sort_key_required ++ index_required.flatten
  let key1 := if mp.mode = MergingMode.Collapsing then mp.sign_column :: key0 else key0
  let key2 := if mp.mode = MergingMode.Replacing
              then mp.is_deleted_column :: mp.version_column :: key1 else key1
  if mp.mode = MergingMode.VersionedCollapsing then mp.sign_column :: key2 else key2

/-- extractMergingAndGatheringColumns (MergeTask.cpp lines 53-104): returns
(merging_column_names, gathering_column_names), partitioning the storage
columns by membership in the key set; when the key set is empty the first
storage column is forced in (lines 86-87; front() of an empty storage column
list is undefined in the C++, modelled with headD ""). -/
def extractMergingAndGatheringColumns (storage_columns : List String)
    (sort_key_required : List String) (index_required : List (List String))
    (mp : MergingParams) : List String × List String :=
  let key_columns0 := keyColumnsBeforeFallback sort_key_required index_required mp
  let key_columns :=
    if key_columns0 = [] then [storage_columns.headD ""] else key_columns0
  (storage_columns.filter (fun column => key_columns.contains column),
   storage_columns.filter (fun column => !key_columns.contains column))

/-- C10: the merging-column set is never empty: given a non-empty storage
column list whose key-source columns are all storage columns (metadata
validity), extractMergingAndGatheringColumns returns a non-empty merging set;
in particular when the sorting key, the indexes and the mode force no columns,
the first storage column is forced into it. -/
theorem mergingColumns_nonempty (storage_columns sort_key_required : List String)
    (index_required : List (List String)) (mp : MergingParams)
    (hne : storage_columns ≠ [])
    (hsub : ∀ n ∈ keyColumnsBeforeFallback sort_key_required index_required mp,
      n ∈ storage_columns) :
    (extractMergingAndGatheringColumns storage_columns sort_key_required
        index_required mp).1 ≠ [] := by
  unfold extractMergingAndGatheringColumns
  by_cases hk : keyColumnsBeforeFallback sort_key_required index_required mp = []
  · rw [hk]
    simp only [if_true]
    rcases storage_columns with _ | ⟨c, rest⟩
    · exact absurd rfl hne
    · apply List.ne_nil_of_mem (a := c)
      apply List.mem_filter.mpr
      refine ⟨List.mem_cons_self c rest, ?_⟩
      simp [List.contains]
  · simp only [if_neg hk]
    rcases hkne : keyColumnsBeforeFallback sort_key_required index_required mp with _ | ⟨k, krest⟩
    · exact absurd hkne hk
    · apply List.ne_nil_of_mem (a := k)
      apply List.mem_filter.mpr
      constructor
      · exact hsub k (by rw [hkne]; exact List.mem_cons_self k krest)
      · simp [List.contains]

/-- Witness for C10 at a concrete input with an empty key set. -/
theorem mergingColumns_nonempty_witness :
    (extractMergingAndGatheringColumns ["a", "b"] [] []
        ⟨MergingMode.Ordinary, "", "", ""⟩).1 ≠ [] :=
  mergingColumns_nonempty ["a", "b"] [] [] ⟨MergingMode.Ordinary, "", "", ""⟩
    (by decide) (by decide)

/-! ### Row-ID maps written by generateRowIdsMap (claim C1) -/

/-- The UINT64_MAX sentinel: the C++ `UInt64 new_row_id = -1`
(MergeTask.cpp line 781) wraps to 2^64 - 1. -/
def UINT64_MAX : Nat := 2 ^ 64 - 1

/-- The modes routed to generateRowIdsMap's row-dropping branch
(MergeTask.cpp lines 660-662). -/
def isCollapsingClassMode (m : MergingMode) : Bool :=
  m = MergingMode.Collapsing || m = MergingMode.Replacing
    || m = MergingMode.VersionedCollapsing

/-- The parts_new_row_ids entry for one source part: the std::unordered_map from
old-part row offset to new-part row id (MergeTask.cpp line 656), modelled as
an insert-or-assign association list where the latest insertion wins. -/
abbrev AssocMap := List (Nat × Nat)

/-- Insert-or-assign. -/
def assocInsert (m : AssocMap) (k v : Nat) : AssocMap := (k, v) :: m

/-- Lookup (operator[] / count on the unordered_map). -/
def assocFind (m : AssocMap) (k : Nat) : Option Nat :=
  (m.find? fun e => e.1 == k).map fun e => e.2

/-- The mutable state of generateRowIdsMap's stream-reading pass
(MergeTask.cpp lines 653-656): new_part_row_id, the per-source cursors
source_row_ids, parts_new_row_ids, and the inverted-map entries written. -/
structure RowIdsPassState where
  new_part_row_id : Nat
  source_row_ids : List Nat
  parts_new_row_ids : List AssocMap
  inverted : List Nat
deriving Repr

/-- Processing of one RowSourceStream record by generateRowIdsMap: the
Collapsing/Replacing/VersionedCollapsing branch (MergeTask.cpp lines 665-693)
passes `check_skip = true` and drops skipped records; the branch for the
other modes (lines 745-773) never consults the skip flag. A record from
source s always advances that source's cursor; a processed record reads the
old offset part_offsets[s][cursor[s]], appends it to the inverted map,
records it in parts_new_row_ids[s], and advances the new-part row counter.
Out-of-range indexing (impossible for streams produced by a real merge, and
undefined behaviour in the C++) is modelled by getD defaults. -/
def generateRowIdsMapStep (check_skip : Bool) (part_offsets : List (List Nat))
    (st : RowIdsPassState) (r : RowSourcePart) : RowIdsPassState :=
  let s := r.source_num
  let st1 :=
    if check_skip && r.skip_flag then st
    else
      let old_part_offset := (part_offsets.getD s []).getD (st.source_row_ids.getD s 0) 0
      { st with
        parts_new_row_ids :=
          st.parts_new_row_ids.set s
            (assocInsert (st.parts_new_row_ids.getD s []) old_part_offset st.new_part_row_id),
        inverted := st.inverted ++ [old_part_offset],
        new_part_row_id := st.new_part_row_id + 1 }
  { st1 with source_row_ids := st1.source_row_ids.set s (st1.source_row_ids.getD s 0 + 1) }

/-- The whole stream-reading pass of generateRowIdsMap. -/
def generateRowIdsMapFirstPass (check_skip : Bool) (part_offsets : List (List Nat))
    (stream : List RowSourcePart) (num_parts : Nat) : RowIdsPassState :=
  stream.foldl (generateRowIdsMapStep check_skip part_offsets)
    ⟨0, List.replicate num_parts 0, List.replicate num_parts [], []⟩

/-- The forward-map writing loop of the Collapsing/Replacing/
VersionedCollapsing branch (MergeTask.cpp lines 696-719), from row old_row_id
for count rows: a surviving row gets its new row id written; a dead row gets
NO map entry and its old row id is collected as a delete row id for the
vector-index bitmap instead. Returns (entries written, delete row ids; the
C++ stores the latter in a zero-initialized vector sized rows_count whose
first entries are these ids). -/
def writeRowIdsMapCollapsing (ids : AssocMap) : Nat → Nat → List Nat × List Nat
  | _, 0 => ([], [])
  | old_row_id, count + 1 =>
    let rest := writeRowIdsMapCollapsing ids (old_row_id + 1) count
    match assocFind ids old_row_id with
    | some new_row_id => (new_row_id :: rest.1, rest.2)
    | none => (rest.1, old_row_id :: rest.2)

/-- The forward-map writing loop of the branch for the other modes
(MergeTask.cpp lines 776-790): every old row gets an entry — its new row id
when it survived, and the UINT64_MAX sentinel otherwise. -/
def writeRowIdsMapOrdinary (ids : AssocMap) : Nat → Nat → List Nat
  | _, 0 => []
  | old_row_id, count + 1 =>
    (match assocFind ids old_row_id with
     | some new_row_id => new_row_id
     | none => UINT64_MAX) :: writeRowIdsMapOrdinary ids (old_row_id + 1) count

/-- MergeTask::ExecuteAndFinalizeHorizontalPart::generateRowIdsMap
(MergeTask.cpp lines 565-832), on the stream read back from the temporary
rows-sources file: given the merging mode, the stream records, the
`_part_offset` columns read from each source and each source's rows_count, it
produces (forward row-ids map per source, inverted row-ids map). -/
def generateRowIdsMap (mode : MergingMode) (stream : List RowSourcePart)
    (part_offsets : List (List Nat)) (rows_counts : List Nat) :
    List (List Nat) × List Nat :=
  ((List.range rows_counts.length).map fun source_num =>
      if isCollapsingClassMode mode then
        (writeRowIdsMapCollapsing
          ((generateRowIdsMapFirstPass (isCollapsingClassMode mode) part_offsets stream
              rows_counts.length).parts_new_row_ids.getD source_num [])
          0 (rows_counts.getD source_num 0)).1
      else
        writeRowIdsMapOrdinary
          ((generateRowIdsMapFirstPass (isCollapsingClassMode mode) part_offsets stream
              rows_counts.length).parts_new_row_ids.getD source_num [])
          0 (rows_counts.getD source_num 0),
   (generateRowIdsMapFirstPass (isCollapsingClassMode mode) part_offsets stream
      rows_counts.length).inverted)

/-- C1 counterexample: in Collapsing mode, with one source part of two rows
whose first row was collapsed away (stream = one skipped then one emitted
record), the forward map written for that part is [0]: it has 1 entry, not
rows_count = 2 entries, and no UINT64_MAX sentinel is written for the dead
row — refuting the claim that the forward map has exactly rows_count entries
in every merging mode. -/
theorem rowIdsMap_collapsing_counterexample :
    ((generateRowIdsMap MergingMode.Collapsing
        [⟨0, true⟩, ⟨0, false⟩] [[0, 1]] [2]).1.getD 0 []).length ≠ 2
    ∧ (generateRowIdsMap MergingMode.Collapsing
        [⟨0, true⟩, ⟨0, false⟩] [[0, 1]] [2]).1.getD 0 [] = [0] := by
  constructor
  · decide
  · decide

lemma writeRowIdsMapOrdinary_eq (ids : AssocMap) (start count : Nat) :
    writeRowIdsMapOrdinary ids start count
      = (List.range' start count).map fun k => (assocFind ids k).getD UINT64_MAX := by
  induction count generalizing start with
  | zero => rfl
  | succ n ih =>
    rw [List.range'_succ, List.map_cons, ← ih (start + 1)]
    show (match assocFind ids start with
          | some new_row_id => new_row_id
          | none => UINT64_MAX) :: writeRowIdsMapOrdinary ids (start + 1) n
        = (assocFind ids start).getD UINT64_MAX :: writeRowIdsMapOrdinary ids (start + 1) n
    cases assocFind ids start <;> rfl

lemma writeRowIdsMapCollapsing_eq (ids : AssocMap) (start count : Nat) :
    (writeRowIdsMapCollapsing ids start count).1
        = (List.range' start count).filterMap (assocFind ids)
    ∧ (writeRowIdsMapCollapsing ids start count).2
        = (List.range' start count).filter fun k => (assocFind ids k).isNone := by
  induction count generalizing start with
  | zero => exact ⟨rfl, rfl⟩
  | succ n ih =>
    obtain ⟨ih1, ih2⟩ := ih (start + 1)
    rw [List.range'_succ, List.filterMap_cons, List.filter_cons]
    cases h : assocFind ids start with
    | none =>
      constructor
      · show (writeRowIdsMapCollapsing ids start (n + 1)).1 = _
        unfold writeRowIdsMapCollapsing
        rw [h]
        exact ih1
      · show (writeRowIdsMapCollapsing ids start (n + 1)).2 = _
        unfold writeRowIdsMapCollapsing
        rw [h]
        simp only [Option.isNone_none, if_true, ih2]
    | some v =>
      constructor
      · show (writeRowIdsMapCollapsing ids start (n + 1)).1 = _
        unfold writeRowIdsMapCollapsing
        rw [h]
        simp only [ih1]
      · show (writeRowIdsMapCollapsing ids start (n + 1)).2 = _
        unfold writeRowIdsMapCollapsing
        rw [h]
        simp only [Option.isNone_some, Bool.false_eq_true, if_false, ih2]

/-- C1 (amended): for the merging modes outside the row-dropping branch, the
forward map written for source i has exactly rows_count entries, the entry at
offset k being the new-part row id of old-part row k or the UINT64_MAX
sentinel when the row did not survive; in Collapsing, Replacing and
VersionedCollapsing mode, however, the map holds entries only for the
surviving old rows in old-row order — a dead row produces no entry at all
(its id is collected for the source's vector-index delete bitmap instead). -/
theorem rowIdsMap_forward_spec (mode : MergingMode) (stream : List RowSourcePart)
    (part_offsets : List (List Nat)) (rows_counts : List Nat) (source_num : Nat) :
    (isCollapsingClassMode mode = false →
      (generateRowIdsMap mode stream part_offsets rows_counts).1.getD source_num []
        = (List.range (rows_counts.getD source_num 0)).map fun k =>
            (assocFind ((generateRowIdsMapFirstPass false part_offsets stream
                rows_counts.length).parts_new_row_ids.getD source_num []) k).getD UINT64_MAX)
    ∧ (isCollapsingClassMode mode = true →
      (generateRowIdsMap mode stream part_offsets rows_counts).1.getD source_num []
        = (List.range (rows_counts.getD source_num 0)).filterMap
            (assocFind ((generateRowIdsMapFirstPass true part_offsets stream
                rows_counts.length).parts_new_row_ids.getD source_num []))) := by
  have hmap : ∀ (F : Nat → List Nat),
      (((List.range rows_counts.length).map F).getD source_num [])
        = if source_num < rows_counts.length then F source_num else [] := by
    intro F
    rw [List.getD_eq_getElem?_getD, List.getElem?_map]
    by_cases h : source_num < rows_counts.length
    · rw [List.getElem?_range h]
      simp [h]
    · rw [List.getElem?_eq_none (by simpa [List.length_range] using Nat.le_of_not_lt h)]
      simp [h]
  constructor
  · intro hcc
    unfold generateRowIdsMap
    rw [hcc, hmap]
    by_cases h : source_num < rows_counts.length
    · rw [if_pos h]
      simp only [Bool.false_eq_true, if_false]
      rw [writeRowIdsMapOrdinary_eq, List.range_eq_range']
    · rw [if_neg h]
      have hz : rows_counts.getD source_num 0 = 0 :=
        List.getD_eq_default _ _ (Nat.le_of_not_lt h)
      rw [hz]
      rfl
  · intro hcc
    unfold generateRowIdsMap
    rw [hcc, hmap]
    by_cases h : source_num < rows_counts.length
    · rw [if_pos h]
      simp only [if_true]
      rw [(writeRowIdsMapCollapsing_eq _ 0 _).1, List.range_eq_range']
    · rw [if_neg h]
      have hz : rows_counts.getD source_num 0 = 0 :=
        List.getD_eq_default _ _ (Nat.le_of_not_lt h)
      rw [hz]
      rfl

/-- Witness for C1 (amended) at a concrete Ordinary-mode merge: one source
part with two rows, both surviving. -/
theorem rowIdsMap_forward_spec_witness :
    isCollapsingClassMode MergingMode.Ordinary = false
    ∧ (generateRowIdsMap MergingMode.Ordinary [⟨0, false⟩, ⟨0, false⟩]
          [[0, 1]] [2]).1.getD 0 []
        = (List.range (([2] : List Nat).getD 0 0)).map fun k =>
            (assocFind ((generateRowIdsMapFirstPass false [[0, 1]]
                [⟨0, false⟩, ⟨0, false⟩]
                ([2] : List Nat).length).parts_new_row_ids.getD 0 []) k).getD UINT64_MAX :=
  ⟨by decide,
   (rowIdsMap_forward_spec MergingMode.Ordinary [⟨0, false⟩, ⟨0, false⟩]
      [[0, 1]] [2] 0).1 (by decide)⟩

/-! ### Decouple eligibility for vector indexes (claim C2) -/

/-- Vector-index build states; only BUILT matters to the merge path. -/
inductive VectorIndexState
  | PENDING
  | BUILDING
  | BUILT
  | ERRORED
deriving DecidableEq, Repr

/-- A source part as seen by the decouple-eligibility fragment of prepare
(MergeTask.cpp lines 319-380): row count, lightweight-delete flag, and the
column index (with its state) the part holds per vector-index name — absent
when getColumnIndex returns no value. -/
structure VSourcePart where
  rows_count : Nat
  has_lightweight_delete : Bool
  column_indices : List (String × VectorIndexState)
deriving DecidableEq, Repr

/-- The C++ expression part->vector_index.getColumnIndex(vec_index), composed with
getVectorIndexState (MergeTask.cpp lines 337-341). -/
def getColumnIndexState (p : VSourcePart) (index_name : String) :
    Option VectorIndexState :=
  (p.column_indices.find? fun e => e.1 == index_name).map fun e => e.2

/-- The inner per-part loop of the eligibility check (MergeTask.cpp lines
334-352) for one vector index, threading
(num_parts_with_vector_index, empty_parts_count, first_part_with_data):
a part without a column index for this index is skipped entirely (counted as
neither); a part with one counts toward the BUILT counter when its state is
BUILT, toward the empty counter when its rows_count is 0, and becomes
first_part_with_data when it is the first such part with rows. `i` is the
loop counter. -/
def scanPartsForIndex (index_name : String) (first0 : Option Nat) (i : Nat) :
    List VSourcePart → Nat × Nat × Option Nat
  | [] => (0, 0, first0)
  | p :: rest =>
    match getColumnIndexState p index_name with
    | none => scanPartsForIndex index_name first0 (i + 1) rest
    | some st =>
      ((if st = VectorIndexState.BUILT then
          (scanPartsForIndex index_name
            (if first0 = none ∧ p.rows_count ≠ 0 then some i else first0) (i + 1) rest).1 + 1
        else
          (scanPartsForIndex index_name
            (if first0 = none ∧ p.rows_count ≠ 0 then some i else first0) (i + 1) rest).1),
       (if p.rows_count = 0 then
          (scanPartsForIndex index_name
            (if first0 = none ∧ p.rows_count ≠ 0 then some i else first0) (i + 1) rest).2.1 + 1
        else
          (scanPartsForIndex index_name
            (if first0 = none ∧ p.rows_count ≠ 0 then some i else first0) (i + 1) rest).2.1),
       (scanPartsForIndex index_name
          (if first0 = none ∧ p.rows_count ≠ 0 then some i else first0) (i + 1) rest).2.2)

/-- The state threaded through the per-index loop (MergeTask.cpp lines
322-363). -/
structure DecoupleScanState where
  can_be_decouple : Bool
  all_parts_have_vector_index : List String
  first_part_with_data : Option Nat
  max_part_with_index : Nat
deriving DecidableEq, Repr

/-- The loop over the table's vector indices (MergeTask.cpp lines 327-363):
per index, run the part scan, fold the BUILT count into max_part_with_index,
and mark the index (and set can_be_decouple) when num_parts > 0 and the BUILT
count plus the empty count equals the part count. -/
def scanVectorIndices (parts : List VSourcePart) :
    List String → DecoupleScanState → DecoupleScanState
  | [], st => st
  | index_name :: rest, st =>
    if 0 < parts.length
        ∧ (scanPartsForIndex index_name st.first_part_with_data 0 parts).1
            + (scanPartsForIndex index_name st.first_part_with_data 0 parts).2.1
          = parts.length then
      scanVectorIndices parts rest
        { can_be_decouple := true,
          all_parts_have_vector_index := index_name :: st.all_parts_have_vector_index,
          first_part_with_data :=
            (scanPartsForIndex index_name st.first_part_with_data 0 parts).2.2,
          max_part_with_index :=
            Nat.max st.max_part_with_index
              (scanPartsForIndex index_name st.first_part_with_data 0 parts).1 }
    else
      scanVectorIndices parts rest
        { st with
          first_part_with_data :=
            (scanPartsForIndex index_name st.first_part_with_data 0 parts).2.2,
          max_part_with_index :=
            Nat.max st.max_part_with_index
              (scanPartsForIndex index_name st.first_part_with_data 0 parts).1 }

/-- The whole per-index scan started from the initial state. -/
def prepareDecoupleScan (vector_indices : List String) (parts : List VSourcePart) :
    DecoupleScanState :=
  scanVectorIndices parts vector_indices ⟨false, [], none, 0⟩

/-- The C++ expression parts[first_part_with_data]->hasLightweightDelete() (MergeTask.cpp line
367). The C++ indexes with first_part_with_data = -1 when no part with a
column index had rows (undefined behaviour); modelled as false. -/
def firstPartWithDataHasLWD (parts : List VSourcePart) (first : Option Nat) : Bool :=
  match first with
  | some i => (parts.getD i ⟨0, false, []⟩).has_lightweight_delete
  | none => false

/-- The resulting flags of the decouple-eligibility fragment of prepare. -/
structure PrepareDecoupleResult where
  can_be_decouple : Bool
  only_one_vpart_merged : Bool
  all_parts_have_vector_index : List String
deriving DecidableEq, Repr

/-- The decouple-eligibility fragment of
MergeTask::ExecuteAndFinalizeHorizontalPart::prepare (MergeTask.cpp lines
319-373): guarded by the enable_decouple_vector_index setting; runs the
per-index scan; then, when eligibility was found but at most one part holds a
built index (max_part_with_index == 1) and the first part with data carries
no lightweight delete, demotes the merge to a single-VPart merge
(only_one_vpart_merged = true) and clears can_be_decouple. -/
def prepareDecouple (enable_decouple_vector_index : Bool)
    (vector_indices : List String) (parts : List VSourcePart) :
    PrepareDecoupleResult :=
  if !enable_decouple_vector_index then ⟨false, false, []⟩
  else if (prepareDecoupleScan vector_indices parts).can_be_decouple
      ∧ (prepareDecoupleScan vector_indices parts).max_part_with_index = 1
      ∧ firstPartWithDataHasLWD parts
          (prepareDecoupleScan vector_indices parts).first_part_with_data = false then
    ⟨false, true, (prepareDecoupleScan vector_indices parts).all_parts_have_vector_index⟩
  else
    ⟨(prepareDecoupleScan vector_indices parts).can_be_decouple, false,
     (prepareDecoupleScan vector_indices parts).all_parts_have_vector_index⟩

/-- The finalizer reset (MergeTask.cpp lines 1127-1131): a merged part that
ends with zero rows is never decoupled — both flags are cleared. -/
def finalizeDecoupleFlags (new_part_rows_count : Nat) (flags : Bool × Bool) :
    Bool × Bool :=
  if new_part_rows_count = 0 then (false, false) else flags

/-- The claim's eligibility condition following the spec's words (P7): for
some vector index, every non-empty source part has a BUILT index for it,
empty sources being ignored. Kept beside the code's condition for
comparison. -/
def specCanBeDecouple (enable_decouple_vector_index : Bool)
    (vector_indices : List String) (parts : List VSourcePart) : Bool :=
  enable_decouple_vector_index
    && vector_indices.any fun index_name =>
        parts.all fun p =>
          p.rows_count == 0
            || getColumnIndexState p index_name == some VectorIndexState.BUILT

/-- Parts whose column index for this name is in state BUILT
(num_parts_with_vector_index, declaratively). -/
def numPartsWithBuiltIndex (parts : List VSourcePart) (index_name : String) : Nat :=
  parts.countP fun p => getColumnIndexState p index_name == some VectorIndexState.BUILT

/-- Empty parts that hold a column index for this name (empty_parts_count,
declaratively — parts without a column index are skipped by the loop). -/
def numEmptyPartsWithIndex (parts : List VSourcePart) (index_name : String) : Nat :=
  parts.countP fun p => (getColumnIndexState p index_name).isSome && p.rows_count == 0

/-- C2 counterexample: with the setting on, one vector index "v", a non-empty
part with a BUILT "v" index and an empty part holding no column index at all,
the claim's condition (every non-empty source has a BUILT index, empty
sources ignored) holds, yet prepare leaves can_be_decouple false: the loop
skips the empty part entirely because it has no column index, so the counts
give 1 + 0 ≠ 2. -/
theorem canBeDecouple_counterexample :
    specCanBeDecouple true ["v"]
        [⟨5, false, [("v", VectorIndexState.BUILT)]⟩, ⟨0, false, []⟩] = true
    ∧ (prepareDecouple true ["v"]
        [⟨5, false, [("v", VectorIndexState.BUILT)]⟩, ⟨0, false, []⟩]).can_be_decouple
      = false := by
  constructor
  · decide
  · decide

lemma scanPartsForIndex_counts (index_name : String) (parts : List VSourcePart) :
    ∀ (first0 : Option Nat) (i : Nat),
    (scanPartsForIndex index_name first0 i parts).1
        = numPartsWithBuiltIndex parts index_name
    ∧ (scanPartsForIndex index_name first0 i parts).2.1
        = numEmptyPartsWithIndex parts index_name := by
  induction parts with
  | nil =>
    intro first0 i
    exact ⟨rfl, rfl⟩
  | cons p rest ih =>
    intro first0 i
    unfold scanPartsForIndex
    cases h : getColumnIndexState p index_name with
    | none =>
      obtain ⟨ih1, ih2⟩ := ih first0 (i + 1)
      constructor
      · rw [ih1]
        simp [numPartsWithBuiltIndex, List.countP_cons, h]
      · rw [ih2]
        simp [numEmptyPartsWithIndex, List.countP_cons, h]
    | some st =>
      obtain ⟨ih1, ih2⟩ :=
        ih (if first0 = none ∧ p.rows_count ≠ 0 then some i else first0) (i + 1)
      constructor
      · rw [show ((if st = VectorIndexState.BUILT then
            (scanPartsForIndex index_name
              (if first0 = none ∧ p.rows_count ≠ 0 then some i else first0) (i + 1) rest).1 + 1
          else
            (scanPartsForIndex index_name
              (if first0 = none ∧ p.rows_count ≠ 0 then some i else first0) (i + 1) rest).1,
          (if p.rows_count = 0 then
            (scanPartsForIndex index_name
              (if first0 = none ∧ p.rows_count ≠ 0 then some i else first0) (i + 1) rest).2.1 + 1
          else
            (scanPartsForIndex index_name
              (if first0 = none ∧ p.rows_count ≠ 0 then some i else first0) (i + 1) rest).2.1),
          (scanPartsForIndex index_name
            (if first0 = none ∧ p.rows_count ≠ 0 then some i else first0) (i + 1) rest).2.2) : Nat × Nat × Option Nat).1
          = (if st = VectorIndexState.BUILT then
              (scanPartsForIndex index_name
                (if first0 = none ∧ p.rows_count ≠ 0 then some i else first0) (i + 1) rest).1 + 1
            else
              (scanPartsForIndex index_name
                (if first0 = none ∧ p.rows_count ≠ 0 then some i else first0) (i + 1) rest).1)
          from rfl]
        by_cases hb : st = VectorIndexState.BUILT
        · simp only [if_pos hb, ih1]
          simp [numPartsWithBuiltIndex, List.countP_cons, h, hb]
        · simp only [if_neg hb, ih1]
          simp [numPartsWithBuiltIndex, List.countP_cons, h, hb]
      · by_cases hz : p.rows_count = 0
        · simp only [if_pos hz, ih2]
          simp [numEmptyPartsWithIndex, List.countP_cons, h, hz]
        · simp only [if_neg hz, ih2]
          simp [numEmptyPartsWithIndex, List.countP_cons, h, hz]

lemma scanVectorIndices_flag (parts : List VSourcePart) (vindices : List String)
    (st : DecoupleScanState) :
    (scanVectorIndices parts vindices st).can_be_decouple
      = (st.can_be_decouple
          || vindices.any fun index_name =>
              decide (0 < parts.length)
                && decide (numPartsWithBuiltIndex parts index_name
                    + numEmptyPartsWithIndex parts index_name = parts.length)) := by
  induction vindices generalizing st with
  | nil => simp [scanVectorIndices]
  | cons v rest ih =>
    unfold scanVectorIndices
    obtain ⟨h1, h2⟩ := scanPartsForIndex_counts v parts st.first_part_with_data 0
    split_ifs with hc
    · rw [ih]
      have hv : (decide (0 < parts.length)
          && decide (numPartsWithBuiltIndex parts v + numEmptyPartsWithIndex parts v
              = parts.length)) = true := by
        rw [Bool.and_eq_true, decide_eq_true_eq, decide_eq_true_eq, ← h1, ← h2]
        exact ⟨hc.1, hc.2⟩
      simp [List.any_cons, hv]
    · rw [ih]
      have hv : (decide (0 < parts.length)
          && decide (numPartsWithBuiltIndex parts v + numEmptyPartsWithIndex parts v
              = parts.length)) = false := by
        rw [Bool.eq_false_iff]
        intro hh
        rw [Bool.and_eq_true, decide_eq_true_eq, decide_eq_true_eq, ← h1, ← h2] at hh
        exact hc hh
      simp [List.any_cons, hv]

/-- C2 (amended): at the end of prepare, can_be_decouple is true exactly when
the setting is enabled, some vector index satisfies the code's counting
condition — the number of parts with a BUILT index for it plus the number of
EMPTY parts holding a column index for it equals the (positive) source-part
count, parts without a column-index object counting as neither — and the
single-VPart demotion (exactly one built index and no lightweight delete on
the first part with data) did not fire; and the finalizer clears both flags
whenever the merged part has zero rows and keeps them otherwise. -/
theorem canBeDecouple_spec (enable : Bool) (vector_indices : List String)
    (parts : List VSourcePart) (flags : Bool × Bool) (n : Nat) :
    ((prepareDecouple enable vector_indices parts).can_be_decouple
      = (enable
          && (vector_indices.any fun index_name =>
                decide (0 < parts.length)
                  && decide (numPartsWithBuiltIndex parts index_name
                      + numEmptyPartsWithIndex parts index_name = parts.length))
          && !(prepareDecouple enable vector_indices parts).only_one_vpart_merged))
    ∧ finalizeDecoupleFlags 0 flags = (false, false)
    ∧ finalizeDecoupleFlags (n + 1) flags = flags := by
  refine ⟨?_, rfl, rfl⟩
  have hflag := scanVectorIndices_flag parts vector_indices ⟨false, [], none, 0⟩
  unfold prepareDecouple
  cases enable with
  | false => simp
  | true =>
    simp only [Bool.not_true, Bool.false_eq_true, if_false]
    split_ifs with hp
    · simp
    · simp only [Bool.true_and, Bool.not_false, Bool.and_true]
      rw [show prepareDecoupleScan vector_indices parts
          = scanVectorIndices parts vector_indices ⟨false, [], none, 0⟩ from rfl, hflag]
      simp

/-! ### Decouple checksums file contents (claim C6) -/

/-- Modelled from the spec: VECTOR_INDEX_FILE_SUFFIX is declared outside
src/; the spec says <SUFFIX> is a fixed engine-wide constant string, whose
exact value is immaterial here. -/
def VECTOR_INDEX_FILE_SUFFIX : String := ".vidx"

/-- The file name merged-inverted_row_ids_map<SUFFIX> (MergeTask.cpp lines 397-398 and
1187-1189). -/
def invertedRowIdsMapFileName : String :=
  "merged-inverted_row_ids_map" ++ VECTOR_INDEX_FILE_SUFFIX

/-- The file name merged-inverted_row_sources_map<SUFFIX> (MergeTask.cpp lines 1172-1173
and 1187-1188). -/
def invertedRowSourcesMapFileName : String :=
  "merged-inverted_row_sources_map" ++ VECTOR_INDEX_FILE_SUFFIX

/-- The file name merged-<i>-<source_part_name>-row_ids_map<SUFFIX> (MergeTask.cpp lines
403-404 and 1194-1195). -/
def rowIdsMapFileName (i : Nat) (part_name : String) : String :=
  "merged-" ++ toString i ++ "-" ++ part_name ++ "-row_ids_map"
    ++ VECTOR_INDEX_FILE_SUFFIX

/-- The row_ids_map files named by prepare in the decouple case
(MergeTask.cpp lines 400-406): one file for EVERY source part, empty parts
included; generateRowIdsMap then opens a write buffer for each of them
(lines 642-650) and finalizes them all (lines 802-807), so every one of
these files is created in the new part directory. A part is
(name, rows_count). -/
def rowIdsMapFiles (parts : List (String × Nat)) : List String :=
  parts.enum.map fun ip => rowIdsMapFileName ip.1 ip.2.1

/-- The index_map_filenames set assembled by finalizeProjectionsAndWholeMerge
(MergeTask.cpp lines 1186-1199): the two inverted maps plus the forward
row-ids map of every source part whose rows_count is non-zero (empty parts
are skipped at lines 1196-1197). -/
def indexMapFilenames (parts : List (String × Nat)) : List String :=
  invertedRowSourcesMapFileName :: invertedRowIdsMapFileName ::
    (parts.enum.filterMap fun ip =>
      if ip.2.2 = 0 then none else some (rowIdsMapFileName ip.1 ip.2.1))

/-- The file names listed by the per-index checksums file written in the
decouple case (MergeTask.cpp lines 1135-1220): the checksums of the index
files moved in from every non-empty source part (moveVectorIndexFiles at
line 1151, empty parts skipped at lines 1147-1148), plus a checksum for
every name in index_map_filenames (lines 1201-1216). `moved_files i` stands
for the names moveVectorIndexFiles returns for source part i and this
index. -/
def decoupleChecksumFileNames (parts : List (String × Nat))
    (moved_files : Nat → List String) : List String :=
  (parts.enum.filterMap fun ip =>
      if ip.2.2 = 0 then none else some (moved_files ip.1)).flatten
    ++ indexMapFilenames parts

/-- C6 counterexample: with a non-empty source part "a" and an empty source
part "b", the forward row-ids map file for "b" IS produced — prepare names
it for every source and generateRowIdsMap creates and finalizes its write
buffer — refuting "no forward row-ids map file is produced for an empty
source part"; the file is merely omitted from the per-index checksums
file. -/
theorem emptyPartRowIdsMapFile_counterexample :
    rowIdsMapFileName 1 "b" ∈ rowIdsMapFiles [("a", 2), ("b", 0)]
    ∧ rowIdsMapFileName 1 "b"
        ∉ decoupleChecksumFileNames [("a", 2), ("b", 0)] (fun _ => []) := by
  constructor
  · decide
  · decide

/-- C6 (amended): the per-index checksums file lists exactly the moved index
files of the non-empty sources, one forward row-ids map per NON-EMPTY source,
the inverted row-ids map and the inverted row-sources map; however forward
row-ids map files themselves are created for every source part, empty ones
included (one file per source). -/
theorem decoupleChecksums_spec (parts : List (String × Nat))
    (moved_files : Nat → List String) (f : String) :
    (f ∈ decoupleChecksumFileNames parts moved_files ↔
      ((∃ ip ∈ parts.enum, ip.2.2 ≠ 0 ∧ f ∈ moved_files ip.1)
        ∨ f = invertedRowSourcesMapFileName
        ∨ f = invertedRowIdsMapFileName
        ∨ (∃ ip ∈ parts.enum, ip.2.2 ≠ 0 ∧ f = rowIdsMapFileName ip.1 ip.2.1)))
    ∧ (rowIdsMapFiles parts).length = parts.length := by
  refine ⟨?_, by simp [rowIdsMapFiles]⟩
  unfold decoupleChecksumFileNames indexMapFilenames
  simp only [List.mem_append, List.mem_cons, List.mem_flatten, List.mem_filterMap]
  constructor
  · rintro (⟨l, ⟨ip, hip, hl⟩, hf⟩ | h)
    · rcases Nat.eq_zero_or_pos ip.2.2 with hz | hz
      · rw [if_pos hz] at hl
        cases hl
      · rw [if_neg (by omega)] at hl
        rw [Option.some_inj] at hl
        subst hl
        exact Or.inl ⟨ip, hip, by omega, hf⟩
    · rcases h with h | h | ⟨ip, hip, hsome⟩
      · exact Or.inr (Or.inl h)
      · exact Or.inr (Or.inr (Or.inl h))
      · rcases Nat.eq_zero_or_pos ip.2.2 with hz | hz
        · rw [if_pos hz] at hsome
          cases hsome
        · rw [if_neg (by omega)] at hsome
          rw [Option.some_inj] at hsome
          exact Or.inr (Or.inr (Or.inr ⟨ip, hip, by omega, hsome.symm⟩))
  · rintro (⟨ip, hip, hnz, hf⟩ | h | h | ⟨ip, hip, hnz, hf⟩)
    · exact Or.inl ⟨moved_files ip.1, ⟨ip, hip, by rw [if_neg hnz]⟩, hf⟩
    · exact Or.inr (Or.inl h)
    · exact Or.inr (Or.inr (Or.inl h))
    · exact Or.inr (Or.inr (Or.inr ⟨ip, hip, by rw [if_neg hnz, hf]⟩))
